import Mathlib

/-!
Shallow embedding of the contrast-checker engine (src/main.go, with the
variant in src/unnamed/part_000 sharing the same numeric core).

The Go code works on float64; the embedding idealises floating point as
real arithmetic (ℝ).  String/hex parsing is embedded exactly and stays
computable; the luminance pipeline uses `Real.rpow` for `math.Pow` and is
therefore `noncomputable`.
-/

namespace ContrastChecker

/-! ## Hex parsing (Go `strings.TrimPrefix`, `strconv.ParseInt(h, 16, 64)`) -/

/-- Go `strings.TrimPrefix(hex, "#")`: removes one leading `'#'` if present. -/
def trimHashPrefix : List Char → List Char
  | '#' :: t => t
  | s => s

/-- The value of one hex digit as Go's strconv accepts it for base 16:
`0`-`9`, `a`-`f`, `A`-`F`. -/
def hexDigitValue (c : Char) : Option Nat :=
  if '0' ≤ c ∧ c ≤ '9' then some (c.toNat - '0'.toNat)
  else if 'a' ≤ c ∧ c ≤ 'f' then some (c.toNat - 'a'.toNat + 10)
  else if 'A' ≤ c ∧ c ≤ 'F' then some (c.toNat - 'A'.toNat + 10)
  else none

/-- Accumulating digit loop of Go `strconv.ParseUint` for base 16
(exact value; overflow is checked by the caller, as its net effect in Go
is an error exactly when the exact value is out of range). -/
def hexDigitsValue : List Char → Nat → Option Nat
  | [], acc => some acc
  | c :: t, acc =>
    match hexDigitValue c with
    | none => none
    | some d => hexDigitsValue t (acc * 16 + d)

/-- Go `strconv.ParseInt(s, 16, 64)`: an optional leading sign, then at
least one base-16 digit, with the int64 range check.  `none` is Go's
non-nil error. -/
def goParseInt16 (s : List Char) : Option Int :=
  match s with
  | [] => none
  | c :: rest =>
    if c = '+' then
      match rest with
      | [] => none
      | _ =>
        match hexDigitsValue rest 0 with
        | none => none
        | some n => if n < 2 ^ 63 then some (Int.ofNat n) else none
    else if c = '-' then
      match rest with
      | [] => none
      | _ =>
        match hexDigitsValue rest 0 with
        | none => none
        | some n => if n ≤ 2 ^ 63 then some (-(Int.ofNat n)) else none
    else
      match hexDigitsValue (c :: rest) 0 with
      | none => none
      | some n => if n < 2 ^ 63 then some (Int.ofNat n) else none

/-- The parsing part of Go `relativeLuminance`: strip an optional `#`,
require 6 remaining characters, parse the three 2-character groups with
`strconv.ParseInt(·, 16, 64)`. -/
def parseChannels (hexStr : String) : Option (Int × Int × Int) :=
  let h := trimHashPrefix hexStr.data
  if h.length = 6 then
    match goParseInt16 (h.take 2), goParseInt16 ((h.drop 2).take 2),
        goParseInt16 ((h.drop 4).take 2) with
    | some r, some g, some b => some (r, g, b)
    | _, _, _ => none
  else none

/-! ## Luminance and contrast (Go `toLinear`, `relativeLuminance`,
`contrastRatio`, `complianceLevel`, `complianceLevelLarge`) -/

/-- Go `toLinear`: sRGB linearisation of one normalised channel. -/
noncomputable def toLinear (value : ℝ) : ℝ :=
  if value ≤ 0.03928 then value / 12.92
  else ((value + 0.055) / 1.055) ^ (2.4 : ℝ)

/-- Go `relativeLuminance`: parse the hex string and combine the
linearised channels with the BT.709 coefficients. -/
noncomputable def relativeLuminance (hexStr : String) : Option ℝ :=
  match parseChannels hexStr with
  | none => none
  | some (r, g, b) =>
    some (0.2126 * toLinear ((r : ℝ) / 255.0) + 0.7152 * toLinear ((g : ℝ) / 255.0)
      + 0.0722 * toLinear ((b : ℝ) / 255.0))

/-- Go `contrastRatio`: `(max + 0.05) / (min + 0.05)` of the two
luminances, propagating the foreground error first. -/
noncomputable def contrastRatio (fgHex bgHex : String) : Option ℝ :=
  match relativeLuminance fgHex with
  | none => none
  | some fgLum =>
    match relativeLuminance bgHex with
    | none => none
    | some bgLum => some ((max fgLum bgLum + 0.05) / (min fgLum bgLum + 0.05))

/-- Go `complianceLevel`: WCAG level for small text. -/
noncomputable def complianceLevel (ratio : ℝ) : String :=
  if ratio ≥ 7 then "AAA"
  else if ratio ≥ 4.5 then "AA"
  else "Fail"

/-- Go `complianceLevelLarge`: WCAG level for large text. -/
noncomputable def complianceLevelLarge (ratio : ℝ) : String :=
  if ratio ≥ 4.5 then "AAA"
  else if ratio ≥ 3 then "AA"
  else "Fail"

/-- Go `math.Round`: round to the nearest integer, ties away from zero. -/
noncomputable def goRound (x : ℝ) : ℝ :=
  if x < 0 then -((⌊-x + 1 / 2⌋ : ℤ) : ℝ) else ((⌊x + 1 / 2⌋ : ℤ) : ℝ)

/-! ## Data model (Go `ColorSets`, `ContrastResult`, `WCAGLevels`) -/

/-- Go `ColorSets`: the two palettes.  A Go map is modelled as an
association list whose order stands for the (unspecified) map iteration
order; map semantics means the key list is `Nodup`. -/
structure ColorSets where
  light : List (String × String)
  dark : List (String × String)

/-- Go `ContrastResult` (src/main.go). -/
structure ContrastResult where
  ForegroundHex : String
  ForegroundName : String
  BackgroundHex : String
  BackgroundName : String
  ContrastRatio : ℝ
  LevelSmallText : String
  LevelLargeText : String
  RequiresFix : Bool

/-- Go `WCAGLevels`: the four result buckets. -/
structure WCAGLevels where
  AAA : List ContrastResult
  AA : List ContrastResult
  Fail : List ContrastResult
  Other : List ContrastResult

/-- The initial `WCAGLevels` value of both handlers: four empty slices. -/
def emptyLevels : WCAGLevels := ⟨[], [], [], []⟩

/-- Go map indexing `m[k]`: the stored value, or the zero value `""`. -/
def lookupD (l : List (String × String)) (k : String) : String :=
  (List.lookup k l).getD ""

/-- The handlers' name collection plus `sort.Strings`: the palette's keys
in ascending lexicographic order (any sorting algorithm gives the same
list, the sorted permutation being unique). -/
def sortedNames (l : List (String × String)) : List String :=
  List.insertionSort (· ≤ ·) (l.map Prod.fst)

/-- Go `strings.Contains(s, sub)`. -/
def strContains (s sub : String) : Bool := decide (sub.data <:+: s.data)

/-- Go `strings.ToLower` (character-wise, as the palette names and queries
are ASCII). -/
def strToLower (s : String) : String := ⟨s.data.map Char.toLower⟩

/-- Go `strings.ToUpper` (character-wise). -/
def strToUpper (s : String) : String := ⟨s.data.map Char.toUpper⟩

/-- The `ContrastResult` literal built in the handler loops from the pair's
names, hex strings and unrounded ratio. -/
noncomputable def mkResult (fgHex nameLight bgHex nameDark : String) (ratio : ℝ) :
    ContrastResult :=
  let levelSmall := complianceLevel ratio
  let levelLarge := complianceLevelLarge ratio
  { ForegroundHex := fgHex
    ForegroundName := nameLight
    BackgroundHex := bgHex
    BackgroundName := nameDark
    ContrastRatio := goRound (ratio * 100) / 100
    LevelSmallText := levelSmall
    LevelLargeText := levelLarge
    RequiresFix := if levelSmall = "Fail" ∨ levelLarge = "Fail" then true else false }

/-- The bucket `switch` of `allContrastsHandler` (first matching case wins;
with an unrecognised non-empty filter nothing is appended). -/
def bucketResult (filter levelSmall : String) (acc : WCAGLevels)
    (result : ContrastResult) : WCAGLevels :=
  if filter = "AAA" ∧ levelSmall = "AAA" then { acc with AAA := acc.AAA ++ [result] }
  else if filter = "AA" ∧ levelSmall = "AA" then { acc with AA := acc.AA ++ [result] }
  else if filter = "FAIL" ∧ levelSmall = "Fail" then
    { acc with Fail := acc.Fail ++ [result] }
  else if filter = "" then
    if levelSmall = "AAA" then { acc with AAA := acc.AAA ++ [result] }
    else if levelSmall = "AA" then { acc with AA := acc.AA ++ [result] }
    else if levelSmall = "Fail" then { acc with Fail := acc.Fail ++ [result] }
    else { acc with Other := acc.Other ++ [result] }
  else acc

/-- One iteration of the inner loop of `allContrastsHandler`: look the pair's
hex values up, apply the search skip, compute the contrast (skipping the
pair on error, which Go only logs), build the result and bucket it.
`search` and `filter` are the already lower-cased and upper-cased query
values. -/
noncomputable def processPair (light dark : List (String × String))
    (search filter : String) (acc : WCAGLevels) (nameLight nameDark : String) :
    WCAGLevels :=
  let fgHex := lookupD light nameLight
  let bgHex := lookupD dark nameDark
  if search ≠ "" ∧ strContains (strToLower nameLight) search = false ∧
      strContains (strToLower nameDark) search = false then
    acc
  else
    match contrastRatio fgHex bgHex with
    | none => acc
    | some ratio =>
      bucketResult filter (complianceLevel ratio) acc
        (mkResult fgHex nameLight bgHex nameDark ratio)

/-- The nested loops of `allContrastsHandler`: sorted foreground names
outside, sorted background names inside. -/
noncomputable def computeLevels (colors : ColorSets) (search filter : String) :
    WCAGLevels :=
  (sortedNames colors.light).foldl
    (fun acc nameLight =>
      (sortedNames colors.dark).foldl
        (fun acc nameDark =>
          processPair colors.light colors.dark search filter acc nameLight nameDark)
        acc)
    emptyLevels

/-- Go `allContrastsHandler`'s full computation: lower-case the search,
upper-case the filter, run the loops, and with no filter fold the `Fail`
bucket into `Other` and empty it. -/
noncomputable def allContrastsReport (colors : ColorSets) (search filter : String) :
    WCAGLevels :=
  let s := strToLower search
  let f := strToUpper filter
  let results := computeLevels colors s f
  if f = "" then { results with Other := results.Other ++ results.Fail, Fail := [] }
  else results

/-- Go `downloadHandler`'s computation: the same loop body with no search
skip and the unfiltered bucket `switch`, then the same `Fail`-into-`Other`
merge.  Its loop body coincides with `processPair` at `search = ""`,
`filter = ""` (both guards then reduce to the plain path). -/
noncomputable def downloadReport (colors : ColorSets) : WCAGLevels :=
  let results := computeLevels colors "" ""
  { results with Other := results.Other ++ results.Fail, Fail := [] }

/-! ## Derived views used to state properties of the pipeline -/

/-- Which bucket the `switch` of `allContrastsHandler` appends a result
with small-text level `levelSmall` to (`none`: no case matches). -/
inductive Bucket where
  | bAAA
  | bAA
  | bFail
  | bOther
  deriving DecidableEq

/-- The bucket the `switch` statement selects, read off from its cases. -/
def bucketOf (filter levelSmall : String) : Option Bucket :=
  if filter = "AAA" ∧ levelSmall = "AAA" then some Bucket.bAAA
  else if filter = "AA" ∧ levelSmall = "AA" then some Bucket.bAA
  else if filter = "FAIL" ∧ levelSmall = "Fail" then some Bucket.bFail
  else if filter = "" then
    some (if levelSmall = "AAA" then Bucket.bAAA
      else if levelSmall = "AA" then Bucket.bAA
      else if levelSmall = "Fail" then Bucket.bFail
      else Bucket.bOther)
  else none

/-- What one visited pair contributes: `none` when the search skips it or
its contrast computation fails, otherwise the built `ContrastResult`. -/
noncomputable def pairOutcome (light dark : List (String × String)) (search : String)
    (nameLight nameDark : String) : Option ContrastResult :=
  if search ≠ "" ∧ strContains (strToLower nameLight) search = false ∧
      strContains (strToLower nameDark) search = false then none
  else
    Option.map
      (mkResult (lookupD light nameLight) nameLight (lookupD dark nameDark) nameDark)
      (contrastRatio (lookupD light nameLight) (lookupD dark nameDark))

/-- The visitation order of the loops: the full cross product, sorted
foreground names as the outer loop, sorted background names inner. -/
def pairsList (light dark : List (String × String)) : List (String × String) :=
  (sortedNames light).flatMap fun nameLight =>
    (sortedNames dark).map fun nameDark => (nameLight, nameDark)

/-- All results the loops produce, in visitation order. -/
noncomputable def outcomes (light dark : List (String × String)) (search : String) :
    List ContrastResult :=
  (pairsList light dark).filterMap fun p => pairOutcome light dark search p.1 p.2

/-- Distribution of a result sequence over the four buckets, keeping the
sequence order inside each bucket. -/
def bucketed (filter : String) (rs : List ContrastResult) : WCAGLevels :=
  { AAA := rs.filter fun r => decide (bucketOf filter r.LevelSmallText = some Bucket.bAAA)
    AA := rs.filter fun r => decide (bucketOf filter r.LevelSmallText = some Bucket.bAA)
    Fail := rs.filter fun r => decide (bucketOf filter r.LevelSmallText = some Bucket.bFail)
    Other := rs.filter fun r =>
      decide (bucketOf filter r.LevelSmallText = some Bucket.bOther) }

/-- Every result a report holds, over all four buckets. -/
def allBucketsList (w : WCAGLevels) : List ContrastResult :=
  w.AAA ++ w.AA ++ w.Fail ++ w.Other

/-- A hex string the engine can parse (its `relativeLuminance` call does
not error). -/
def validHex (h : String) : Bool := (parseChannels h).isSome

/-- A palette with the entries whose hex string is malformed removed. -/
def dropInvalid (l : List (String × String)) : List (String × String) :=
  l.filter fun e => validHex e.2

/-- Modelled from the spec: the small-text classification sentence
"ratio ≥ 7 → AAA; ratio ≥ 4.5 → AA; else → Fail", with the claim's
reading "AA when 7 > r ≥ 4.5" made explicit. -/
noncomputable def specLevelSmall (r : ℝ) : String :=
  if r ≥ 7 then "AAA" else if 4.5 ≤ r ∧ r < 7 then "AA" else "Fail"

/-- Modelled from the spec: the large-text classification sentence
"ratio ≥ 4.5 → AAA; ratio ≥ 3 → AA; else → Fail". -/
noncomputable def specLevelLarge (r : ℝ) : String :=
  if r ≥ 4.5 then "AAA" else if 3 ≤ r ∧ r < 4.5 then "AA" else "Fail"

/-- A stored result is consistent with the unrounded ratio of its own hex
pair: both levels are the classification of the unrounded ratio, and the
stored `ContrastRatio` is that ratio rounded to 2 decimals. -/
noncomputable def resultConsistent (r : ContrastResult) : Bool :=
  match contrastRatio r.ForegroundHex r.BackgroundHex with
  | none => false
  | some ratio =>
    r.LevelSmallText == complianceLevel ratio &&
    r.LevelLargeText == complianceLevelLarge ratio &&
    decide (r.ContrastRatio = goRound (ratio * 100) / 100)

/-! ## Characterisation of the loop as an ordered bucket distribution -/

theorem bucketResult_eq (filter levelSmall : String) (acc : WCAGLevels)
    (r : ContrastResult) :
    bucketResult filter levelSmall acc r =
      { AAA := acc.AAA ++
          if bucketOf filter levelSmall = some Bucket.bAAA then [r] else []
        AA := acc.AA ++
          if bucketOf filter levelSmall = some Bucket.bAA then [r] else []
        Fail := acc.Fail ++
          if bucketOf filter levelSmall = some Bucket.bFail then [r] else []
        Other := acc.Other ++
          if bucketOf filter levelSmall = some Bucket.bOther then [r] else [] } := by
  unfold bucketResult bucketOf
  split_ifs <;> simp_all

theorem foldl_bucketResult (filter : String) (rs : List ContrastResult)
    (acc : WCAGLevels) :
    rs.foldl (fun a r => bucketResult filter r.LevelSmallText a r) acc =
      { AAA := acc.AAA ++ (bucketed filter rs).AAA
        AA := acc.AA ++ (bucketed filter rs).AA
        Fail := acc.Fail ++ (bucketed filter rs).Fail
        Other := acc.Other ++ (bucketed filter rs).Other } := by
  induction rs generalizing acc with
  | nil => simp [bucketed]
  | cons r t ih =>
    rw [List.foldl_cons, bucketResult_eq, ih]
    unfold bucketed
    rcases hb : bucketOf filter (ContrastResult.LevelSmallText r) with _ | b
    · simp [List.filter_cons, hb, List.append_assoc]
    · cases b <;> simp [List.filter_cons, hb, List.append_assoc]

theorem processPair_eq (light dark : List (String × String)) (search filter : String)
    (acc : WCAGLevels) (nameLight nameDark : String) :
    processPair light dark search filter acc nameLight nameDark =
      (pairOutcome light dark search nameLight nameDark).elim acc
        (fun r => bucketResult filter r.LevelSmallText acc r) := by
  unfold processPair pairOutcome
  split_ifs with h
  · rfl
  · cases hc : contrastRatio (lookupD light nameLight) (lookupD dark nameDark) <;>
      simp [hc, mkResult]

theorem foldl_filterMap {α β σ : Type} (g : α → Option β) (h : σ → β → σ)
    (l : List α) (init : σ) :
    (l.filterMap g).foldl h init =
      l.foldl (fun acc x => (g x).elim acc (h acc)) init := by
  induction l generalizing init with
  | nil => rfl
  | cons a t ih => cases hg : g a <;> simp [List.filterMap_cons, hg, ih]

theorem foldl_cross {α β σ : Type} (A : List α) (B : List β) (g : σ → α → β → σ)
    (init : σ) :
    A.foldl (fun acc a => B.foldl (fun acc b => g acc a b) acc) init =
      (A.flatMap fun a => B.map fun b => (a, b)).foldl
        (fun acc p => g acc p.1 p.2) init := by
  induction A generalizing init with
  | nil => rfl
  | cons a t ih =>
    simp only [List.foldl_cons, List.flatMap_cons, List.foldl_append, List.foldl_map,
      ih]

theorem computeLevels_eq (colors : ColorSets) (search filter : String) :
    computeLevels colors search filter =
      bucketed filter (outcomes colors.light colors.dark search) := by
  unfold computeLevels outcomes pairsList
  rw [foldl_cross]
  simp only [processPair_eq]
  rw [← foldl_filterMap, foldl_bucketResult]
  simp [emptyLevels]

/-! ## Shape of produced results -/

theorem mem_outcomes_shape {light dark : List (String × String)} {search : String}
    {r : ContrastResult} (hr : r ∈ outcomes light dark search) :
    ∃ nameLight nameDark ratio,
      contrastRatio (lookupD light nameLight) (lookupD dark nameDark) = some ratio ∧
      r = mkResult (lookupD light nameLight) nameLight (lookupD dark nameDark)
        nameDark ratio := by
  unfold outcomes at hr
  rw [List.mem_filterMap] at hr
  obtain ⟨p, -, hp⟩ := hr
  unfold pairOutcome at hp
  split_ifs at hp
  obtain ⟨ratio, hc, hm⟩ := Option.map_eq_some'.1 hp
  exact ⟨p.1, p.2, ratio, hc, hm.symm⟩

theorem mem_report_mem_outcomes {colors : ColorSets} {search filter : String}
    {r : ContrastResult}
    (hr : r ∈ allBucketsList (allContrastsReport colors search filter)) :
    r ∈ outcomes colors.light colors.dark (strToLower search) := by
  simp only [allContrastsReport, computeLevels_eq] at hr
  by_cases hf : strToUpper filter = "" <;>
    simp only [hf, if_pos, if_neg, ite_true, ite_false, allBucketsList,
      bucketed, List.mem_append, List.mem_filter, List.not_mem_nil] at hr <;>
    tauto

theorem report_all_of_mkResult (p : ContrastResult → Bool)
    (hp : ∀ fgHex nameLight bgHex nameDark ratio,
      contrastRatio fgHex bgHex = some ratio →
      p (mkResult fgHex nameLight bgHex nameDark ratio) = true)
    (colors : ColorSets) (search filter : String) :
    (allBucketsList (allContrastsReport colors search filter)).all p = true := by
  rw [List.all_eq_true]
  intro r hr
  obtain ⟨nl, nd, ratio, hc, hq⟩ := mem_outcomes_shape (mem_report_mem_outcomes hr)
  rw [hq]
  exact hp _ _ _ _ _ hc

theorem downloadReport_eq (colors : ColorSets) :
    downloadReport colors = allContrastsReport colors "" "" := rfl

/-! ## The classification thresholds -/

theorem complianceLevel_cases (ratio : ℝ) :
    complianceLevel ratio = "AAA" ∨ complianceLevel ratio = "AA" ∨
      complianceLevel ratio = "Fail" := by
  unfold complianceLevel
  split_ifs <;> simp

theorem large_AAA_of_small_AAA (ratio : ℝ) (h : complianceLevel ratio = "AAA") :
    complianceLevelLarge ratio = "AAA" := by
  unfold complianceLevel at h
  unfold complianceLevelLarge
  split_ifs with h1 <;> split_ifs at h <;> simp_all <;> linarith

theorem large_AAA_of_small_AA (ratio : ℝ) (h : complianceLevel ratio = "AA") :
    complianceLevelLarge ratio = "AAA" := by
  unfold complianceLevel at h
  unfold complianceLevelLarge
  split_ifs with h1 <;> split_ifs at h <;> simp_all

theorem small_Fail_of_large_Fail (ratio : ℝ) (h : complianceLevelLarge ratio = "Fail") :
    complianceLevel ratio = "Fail" := by
  unfold complianceLevelLarge at h
  unfold complianceLevel
  split_ifs with h1 h2 <;> split_ifs at h <;> simp_all
  linarith

/-! ## Claim theorems -/

/-- Claim C8: for all colors `a` and `b` (valid or not),
`contrastRatio a b = contrastRatio b a`: swapping foreground and
background never changes the numeric ratio (nor the error behaviour). -/
theorem c8_contrastRatio_symmetric (a b : String) :
    contrastRatio a b = contrastRatio b a := by
  unfold contrastRatio
  cases ha : relativeLuminance a <;> cases hb : relativeLuminance b <;>
    simp [ha, hb, max_comm, min_comm]

/-- Claim C3, evidence of the code bug: `strconv.ParseInt` accepts a
leading sign, so the 6-character string `"-1ffff"`, whose first
2-character group `"-1"` is not a hexadecimal digit pair, parses
successfully with red channel `-1 ∉ [0,255]`, and `relativeLuminance`
returns a value instead of the `InvalidColorFormat` error the claim (and
spec §4.1) requires. -/
theorem c3_signed_group_accepted :
    parseChannels "-1ffff" = some (-1, 255, 255) ∧
      (relativeLuminance "-1ffff").isSome = true := by
  have h : parseChannels "-1ffff" = some (-1, 255, 255) := by decide
  exact ⟨h, by simp [relativeLuminance, h]⟩

/-- Claim C4: the enumeration visits the full cross product of the two
palettes in the order sorted foreground names (outer) × sorted background
names (inner) — `sortedNames` is sorted and is a permutation of the
palette's keys, and the loop result is exactly the ordered bucket
distribution of the outcome sequence taken over `pairsList`, so results
inside each bucket appear exactly in visitation order. -/
theorem c4_enumeration_order (colors : ColorSets) (search filter : String) :
    List.Sorted (· ≤ ·) (sortedNames colors.light) ∧
    (sortedNames colors.light).Perm (colors.light.map Prod.fst) ∧
    List.Sorted (· ≤ ·) (sortedNames colors.dark) ∧
    (sortedNames colors.dark).Perm (colors.dark.map Prod.fst) ∧
    computeLevels colors search filter =
      bucketed filter (outcomes colors.light colors.dark search) :=
  ⟨List.sorted_insertionSort _ _, List.perm_insertionSort _ _,
    List.sorted_insertionSort _ _, List.perm_insertionSort _ _,
    computeLevels_eq colors search filter⟩

/-- Claim C1: the small-text level of the unrounded ratio is AAA when
ratio ≥ 7, AA when 7 > ratio ≥ 4.5 and Fail otherwise; the large-text
level is AAA when ratio ≥ 4.5, AA when 4.5 > ratio ≥ 3 and Fail otherwise
(the code classifiers agree with the spec-modelled ones); and every
result a report stores has both levels computed from the unrounded ratio
of its own hex pair while its stored `ContrastRatio` is that ratio
rounded to 2 decimals. -/
theorem c1_levels_from_unrounded_ratio (colors : ColorSets) (search filter : String) :
    (∀ ratio : ℝ, complianceLevel ratio = specLevelSmall ratio ∧
      complianceLevelLarge ratio = specLevelLarge ratio) ∧
    (allBucketsList (allContrastsReport colors search filter)).all
      resultConsistent = true := by
  constructor
  · intro ratio
    constructor
    · unfold complianceLevel specLevelSmall
      split_ifs <;> first | rfl | (exfalso; simp_all; try linarith)
    · unfold complianceLevelLarge specLevelLarge
      split_ifs <;> first | rfl | (exfalso; simp_all; try linarith)
  · refine report_all_of_mkResult _ ?_ colors search filter
    intro fg nl bg nd ratio hc
    unfold resultConsistent mkResult
    simp [hc]

/-- Claim C2: every result produced by the report computation or by the
download computation has `RequiresFix` true exactly when its small-text
level or its large-text level is `"Fail"`. -/
theorem c2_requiresFix_iff (colors : ColorSets) (search filter : String) :
    (allBucketsList (allContrastsReport colors search filter)).all
      (fun r => r.RequiresFix ==
        (r.LevelSmallText == "Fail" || r.LevelLargeText == "Fail")) = true ∧
    (allBucketsList (downloadReport colors)).all
      (fun r => r.RequiresFix ==
        (r.LevelSmallText == "Fail" || r.LevelLargeText == "Fail")) = true := by
  have key : ∀ c s f, (allBucketsList (allContrastsReport c s f)).all
      (fun r => r.RequiresFix ==
        (r.LevelSmallText == "Fail" || r.LevelLargeText == "Fail")) = true := by
    intro c s f
    refine report_all_of_mkResult _ ?_ c s f
    intro fg nl bg nd ratio hc
    unfold mkResult
    by_cases h1 : complianceLevel ratio = "Fail" <;>
      by_cases h2 : complianceLevelLarge ratio = "Fail" <;> simp [h1, h2]
  exact ⟨key colors search filter, by rw [downloadReport_eq]; exact key colors "" ""⟩

/-- Claim C10: the large-text level is never stricter than the small-text
level — small AAA gives large AAA, small AA gives large AAA, and large
Fail forces small Fail; consequently every stored result's `RequiresFix`
equals the test `LevelSmallText = "Fail"` alone. -/
theorem c10_large_never_stricter (colors : ColorSets) (search filter : String) :
    (∀ ratio : ℝ,
      (complianceLevel ratio = "AAA" → complianceLevelLarge ratio = "AAA") ∧
      (complianceLevel ratio = "AA" → complianceLevelLarge ratio = "AAA") ∧
      (complianceLevelLarge ratio = "Fail" → complianceLevel ratio = "Fail")) ∧
    (allBucketsList (allContrastsReport colors search filter)).all
      (fun r => r.RequiresFix == (r.LevelSmallText == "Fail")) = true := by
  constructor
  · exact fun ratio => ⟨large_AAA_of_small_AAA ratio, large_AAA_of_small_AA ratio,
      small_Fail_of_large_Fail ratio⟩
  · refine report_all_of_mkResult _ ?_ colors search filter
    intro fg nl bg nd ratio hc
    unfold mkResult
    by_cases h1 : complianceLevel ratio = "Fail"
    · simp [h1]
    · have h2 : complianceLevelLarge ratio ≠ "Fail" :=
        fun h => h1 (small_Fail_of_large_Fail ratio h)
      simp [h1, h2]

theorem bucketOf_empty_AAA {levelSmall : String}
    (h : bucketOf "" levelSmall = some Bucket.bAAA) : levelSmall = "AAA" := by
  unfold bucketOf at h
  split_ifs at h <;> simp_all

theorem bucketOf_empty_AA {levelSmall : String}
    (h : bucketOf "" levelSmall = some Bucket.bAA) : levelSmall = "AA" := by
  unfold bucketOf at h
  split_ifs at h <;> simp_all

theorem bucketOf_empty_Fail {levelSmall : String}
    (h : bucketOf "" levelSmall = some Bucket.bFail) : levelSmall = "Fail" := by
  unfold bucketOf at h
  split_ifs at h <;> simp_all

/-- Claim C5: with no filter each computed pair is bucketed by its
small-text level; before output the `Fail` bucket's results are appended
to the `Other` bucket and the `Fail` bucket is emptied, so the observable
non-empty categories are at most AAA, AA and Other (the pre-merge `Other`
bucket is even empty, the levels taking only the three known values). -/
theorem c5_no_filter_merge (colors : ColorSets) (search : String) :
    allContrastsReport colors search "" =
      { AAA := (computeLevels colors (strToLower search) "").AAA
        AA := (computeLevels colors (strToLower search) "").AA
        Fail := []
        Other := (computeLevels colors (strToLower search) "").Other ++
          (computeLevels colors (strToLower search) "").Fail } ∧
    (computeLevels colors (strToLower search) "").AAA.all
      (fun r => r.LevelSmallText == "AAA") = true ∧
    (computeLevels colors (strToLower search) "").AA.all
      (fun r => r.LevelSmallText == "AA") = true ∧
    (computeLevels colors (strToLower search) "").Fail.all
      (fun r => r.LevelSmallText == "Fail") = true ∧
    (computeLevels colors (strToLower search) "").Other = [] := by
  refine ⟨rfl, ?_, ?_, ?_, ?_⟩
  · rw [computeLevels_eq, List.all_eq_true]
    intro r hr
    have := List.mem_filter.1 hr
    simp only [decide_eq_true_eq] at this
    simp [bucketOf_empty_AAA this.2]
  · rw [computeLevels_eq, List.all_eq_true]
    intro r hr
    have := List.mem_filter.1 hr
    simp only [decide_eq_true_eq] at this
    simp [bucketOf_empty_AA this.2]
  · rw [computeLevels_eq, List.all_eq_true]
    intro r hr
    have := List.mem_filter.1 hr
    simp only [decide_eq_true_eq] at this
    simp [bucketOf_empty_Fail this.2]
  · rw [computeLevels_eq]
    unfold bucketed
    rw [List.filter_eq_nil_iff]
    intro r hr
    obtain ⟨nl, nd, ratio, hc, hq⟩ := mem_outcomes_shape hr
    subst hq
    rcases complianceLevel_cases ratio with h | h | h <;>
      simp [mkResult, bucketOf, h]

/-- Claim C6: with a non-empty search term, a pair neither of whose names
contains the term case-insensitively is skipped before any contrast
computation (the loop body returns the accumulator unchanged, so the pair
is in no bucket); and a term contained in no name of either palette
yields a report with every bucket empty — not an error. -/
theorem c6_search_term_filter (colors : ColorSets) (search filter : String)
    (hs : strToLower search ≠ "")
    (hl : (colors.light.map Prod.fst).all
      (fun n => !strContains (strToLower n) (strToLower search)) = true)
    (hd : (colors.dark.map Prod.fst).all
      (fun n => !strContains (strToLower n) (strToLower search)) = true) :
    (∀ light dark s f acc nameLight nameDark, s ≠ "" →
      strContains (strToLower nameLight) s = false →
      strContains (strToLower nameDark) s = false →
      processPair light dark s f acc nameLight nameDark = acc) ∧
    allContrastsReport colors search filter = emptyLevels := by
  constructor
  · intro light dark s f acc nameLight nameDark h1 h2 h3
    unfold processPair
    rw [if_pos ⟨h1, h2, h3⟩]
  · have houtcomes : outcomes colors.light colors.dark (strToLower search) = [] := by
      unfold outcomes
      rw [List.filterMap_eq_nil_iff]
      intro p hp
      unfold pairsList at hp
      rw [List.mem_flatMap] at hp
      obtain ⟨nl, hnl, hp⟩ := hp
      rw [List.mem_map] at hp
      obtain ⟨nd, hnd, rfl⟩ := hp
      have hnl' : nl ∈ colors.light.map Prod.fst :=
        (List.perm_insertionSort _ _).mem_iff.1 hnl
      have hnd' : nd ∈ colors.dark.map Prod.fst :=
        (List.perm_insertionSort _ _).mem_iff.1 hnd
      rw [List.all_eq_true] at hl hd
      have h2 := hl _ hnl'
      have h3 := hd _ hnd'
      rw [Bool.not_eq_true'] at h2 h3
      unfold pairOutcome
      rw [if_pos ⟨hs, h2, h3⟩]
    simp only [allContrastsReport, computeLevels_eq, houtcomes]
    by_cases hf : strToUpper filter = "" <;>
      simp [hf, bucketed, emptyLevels]

/-! ## Malformed entries (Claim C7 machinery) -/

theorem relativeLuminance_none_iff (h : String) :
    relativeLuminance h = none ↔ validHex h = false := by
  unfold relativeLuminance validHex
  cases hp : parseChannels h with
  | none => simp
  | some v =>
    obtain ⟨r, g, b⟩ := v
    simp

theorem contrastRatio_none_of_invalid {fg bg : String}
    (h : validHex fg = false ∨ validHex bg = false) :
    contrastRatio fg bg = none := by
  unfold contrastRatio
  rcases h with h | h
  · rw [(relativeLuminance_none_iff fg).2 h]
  · cases hf : relativeLuminance fg <;>
      simp [hf, (relativeLuminance_none_iff bg).2 h]

theorem pairOutcome_none_of_invalid {light dark : List (String × String)}
    {s nameLight nameDark : String}
    (h : validHex (lookupD light nameLight) = false ∨
      validHex (lookupD dark nameDark) = false) :
    pairOutcome light dark s nameLight nameDark = none := by
  unfold pairOutcome
  split_ifs
  · rfl
  · rw [contrastRatio_none_of_invalid h]
    rfl

theorem lookupD_cons_self {a v : String} {t : List (String × String)} :
    lookupD ((a, v) :: t) a = v := by
  simp [lookupD, List.lookup_cons]

theorem lookupD_cons_ne {a v k : String} {t : List (String × String)} (h : ¬k = a) :
    lookupD ((a, v) :: t) k = lookupD t k := by
  have hb : (k == a) = false := beq_eq_false_iff_ne.2 h
  simp [lookupD, List.lookup_cons, hb]

theorem lookup_eq_none_of_not_mem {l : List (String × String)} {k : String}
    (h : k ∉ l.map Prod.fst) : List.lookup k l = none := by
  induction l with
  | nil => rfl
  | cons e t ih =>
    obtain ⟨a, v⟩ := e
    rw [List.map_cons, List.mem_cons] at h
    push_neg at h
    have hb : (k == a) = false := beq_eq_false_iff_ne.2 h.1
    simp [List.lookup_cons, hb, ih h.2]

theorem lookup_dropInvalid_of_valid {l : List (String × String)} {k : String}
    (hv : validHex (lookupD l k) = true) :
    lookupD (dropInvalid l) k = lookupD l k := by
  induction l with
  | nil => rfl
  | cons e t ih =>
    obtain ⟨a, v⟩ := e
    by_cases hka : k = a
    · subst hka
      have hl : lookupD ((k, v) :: t) k = v := lookupD_cons_self
      rw [hl] at hv ⊢
      have hd : dropInvalid ((k, v) :: t) = (k, v) :: dropInvalid t := by
        simp [dropInvalid, List.filter_cons, hv]
      rw [hd]
      exact lookupD_cons_self
    · have hstep : lookupD ((a, v) :: t) k = lookupD t k := lookupD_cons_ne hka
      rw [hstep] at hv ⊢
      by_cases hval : validHex v = true
      · have hd : dropInvalid ((a, v) :: t) = (a, v) :: dropInvalid t := by
          simp [dropInvalid, List.filter_cons, hval]
        rw [hd]
        have h2 : lookupD ((a, v) :: dropInvalid t) k = lookupD (dropInvalid t) k :=
          lookupD_cons_ne hka
        rw [h2]
        exact ih hv
      · have hd : dropInvalid ((a, v) :: t) = dropInvalid t := by
          simp [dropInvalid, List.filter_cons, hval]
        rw [hd]
        exact ih hv

theorem lookup_dropInvalid_invalid {l : List (String × String)} {k : String}
    (hk : (l.map Prod.fst).Nodup) (hv : validHex (lookupD l k) = false) :
    validHex (lookupD (dropInvalid l) k) = false := by
  induction l with
  | nil => exact hv
  | cons e t ih =>
    obtain ⟨a, v⟩ := e
    rw [List.map_cons, List.nodup_cons] at hk
    by_cases hka : k = a
    · subst hka
      have hl : lookupD ((k, v) :: t) k = v := lookupD_cons_self
      rw [hl] at hv
      have hd : dropInvalid ((k, v) :: t) = dropInvalid t := by
        simp [dropInvalid, List.filter_cons, hv]
      rw [hd]
      have hnone : List.lookup k (dropInvalid t) = none :=
        lookup_eq_none_of_not_mem
          (fun hm => hk.1 (((List.filter_sublist t).map Prod.fst).subset hm))
      simp [lookupD, hnone]
      decide
    · have hstep : lookupD ((a, v) :: t) k = lookupD t k := lookupD_cons_ne hka
      rw [hstep] at hv
      by_cases hval : validHex v = true
      · have hd : dropInvalid ((a, v) :: t) = (a, v) :: dropInvalid t := by
          simp [dropInvalid, List.filter_cons, hval]
        rw [hd]
        have h2 : lookupD ((a, v) :: dropInvalid t) k = lookupD (dropInvalid t) k :=
          lookupD_cons_ne hka
        rw [h2]
        exact ih hk.2 hv
      · have hd : dropInvalid ((a, v) :: t) = dropInvalid t := by
          simp [dropInvalid, List.filter_cons, hval]
        rw [hd]
        exact ih hk.2 hv

theorem pairOutcome_dropInvalid {light dark : List (String × String)} (s a b : String)
    (hk1 : (light.map Prod.fst).Nodup) (hk2 : (dark.map Prod.fst).Nodup) :
    pairOutcome (dropInvalid light) (dropInvalid dark) s a b =
      pairOutcome light dark s a b := by
  by_cases hA : validHex (lookupD light a) = true
  · by_cases hB : validHex (lookupD dark b) = true
    · unfold pairOutcome
      rw [lookup_dropInvalid_of_valid hA, lookup_dropInvalid_of_valid hB]
    · have hB' : validHex (lookupD dark b) = false := by simpa using hB
      rw [pairOutcome_none_of_invalid (Or.inr (lookup_dropInvalid_invalid hk2 hB')),
        pairOutcome_none_of_invalid (Or.inr hB')]
  · have hA' : validHex (lookupD light a) = false := by simpa using hA
    rw [pairOutcome_none_of_invalid (Or.inl (lookup_dropInvalid_invalid hk1 hA')),
      pairOutcome_none_of_invalid (Or.inl hA')]

theorem keys_dropInvalid {l : List (String × String)}
    (hk : (l.map Prod.fst).Nodup) :
    (dropInvalid l).map Prod.fst =
      (l.map Prod.fst).filter (fun n => validHex (lookupD l n)) := by
  induction l with
  | nil => rfl
  | cons e t ih =>
    obtain ⟨a, v⟩ := e
    rw [List.map_cons, List.nodup_cons] at hk
    have hlook : lookupD ((a, v) :: t) a = v := lookupD_cons_self
    have hfilter : (t.map Prod.fst).filter
        (fun n => validHex (lookupD ((a, v) :: t) n)) =
        (t.map Prod.fst).filter (fun n => validHex (lookupD t n)) := by
      apply List.filter_congr
      intro n hn
      have hna : ¬n = a := fun h => hk.1 (h ▸ hn)
      rw [lookupD_cons_ne hna]
    have ht := ih hk.2
    unfold dropInvalid at ht ⊢
    by_cases hv : validHex v = true <;>
      simp [List.filter_cons, hv, hlook, hfilter, List.map_cons, ht]

theorem sortedNames_dropInvalid {l : List (String × String)}
    (hk : (l.map Prod.fst).Nodup) :
    sortedNames (dropInvalid l) =
      (sortedNames l).filter (fun n => validHex (lookupD l n)) := by
  refine List.eq_of_perm_of_sorted ?_ (List.sorted_insertionSort _ _)
    (List.Pairwise.sublist (List.filter_sublist _) (List.sorted_insertionSort _ _))
  refine (List.perm_insertionSort _ _).trans ?_
  rw [keys_dropInvalid hk]
  exact ((List.perm_insertionSort _ _).filter _).symm

theorem filterMap_flatMap {α β γ : Type} (l : List α) (g : α → List β)
    (f : β → Option γ) :
    (l.flatMap g).filterMap f = l.flatMap fun a => (g a).filterMap f := by
  induction l with
  | nil => rfl
  | cons a t ih => simp [List.flatMap_cons, List.filterMap_append, ih]

theorem filterMap_filter_eq_of_none {α β : Type} (p : α → Bool) (f : α → Option β)
    (l : List α) (h : ∀ a ∈ l, p a = false → f a = none) :
    (l.filter p).filterMap f = l.filterMap f := by
  induction l with
  | nil => rfl
  | cons a t ih =>
    have ht := ih fun x hx => h x (List.mem_cons_of_mem a hx)
    rw [List.filter_cons]
    by_cases hp : p a = true
    · simp [hp, List.filterMap_cons, ht]
    · have hpa : p a = false := by simpa using hp
      have hfa : f a = none := h a (List.mem_cons_self a t) hpa
      simp [hpa, List.filterMap_cons, hfa, ht]

theorem flatMap_filter_eq_of_nil {α β : Type} (p : α → Bool) (g : α → List β)
    (l : List α) (h : ∀ a ∈ l, p a = false → g a = []) :
    (l.filter p).flatMap g = l.flatMap g := by
  induction l with
  | nil => rfl
  | cons a t ih =>
    have ht := ih fun x hx => h x (List.mem_cons_of_mem a hx)
    rw [List.filter_cons]
    by_cases hp : p a = true
    · simp [hp, List.flatMap_cons, ht]
    · have hpa : p a = false := by simpa using hp
      have hga : g a = [] := h a (List.mem_cons_self a t) hpa
      simp [hpa, List.flatMap_cons, hga, ht]

theorem outcomes_dropInvalid (light dark : List (String × String)) (s : String)
    (hk1 : (light.map Prod.fst).Nodup) (hk2 : (dark.map Prod.fst).Nodup) :
    outcomes (dropInvalid light) (dropInvalid dark) s = outcomes light dark s := by
  unfold outcomes pairsList
  rw [filterMap_flatMap, filterMap_flatMap]
  simp only [List.filterMap_map, Function.comp_def]
  have hpo : ∀ a b, pairOutcome (dropInvalid light) (dropInvalid dark) s a b =
      pairOutcome light dark s a b := fun a b => pairOutcome_dropInvalid s a b hk1 hk2
  simp only [hpo]
  rw [sortedNames_dropInvalid hk1, sortedNames_dropInvalid hk2]
  have hinner : ∀ a : String,
      ((sortedNames dark).filter (fun n => validHex (lookupD dark n))).filterMap
        (fun b => pairOutcome light dark s a b) =
      (sortedNames dark).filterMap (fun b => pairOutcome light dark s a b) := by
    intro a
    apply filterMap_filter_eq_of_none
    intro b _ hb
    exact pairOutcome_none_of_invalid (Or.inr hb)
  simp only [hinner]
  apply flatMap_filter_eq_of_nil
  intro a _ ha
  rw [List.filterMap_eq_nil_iff]
  intro b _
  exact pairOutcome_none_of_invalid (Or.inl ha)

/-- Claim C7: a pair whose contrast computation errors is skipped inside
the loop — the accumulator, hence every bucket, is unchanged and the
enumeration continues — and dropping all malformed palette entries leaves
the whole report unchanged, so pairs built only from valid entries appear
in the report exactly as before. -/
theorem c7_malformed_entry_skipped (colors : ColorSets) (search filter : String)
    (hk1 : (colors.light.map Prod.fst).Nodup)
    (hk2 : (colors.dark.map Prod.fst).Nodup) :
    (∀ light dark s f acc nameLight nameDark,
      contrastRatio (lookupD light nameLight) (lookupD dark nameDark) = none →
      processPair light dark s f acc nameLight nameDark = acc) ∧
    allContrastsReport colors search filter =
      allContrastsReport ⟨dropInvalid colors.light, dropInvalid colors.dark⟩
        search filter := by
  constructor
  · intro light dark s f acc nameLight nameDark hc
    rw [processPair_eq]
    unfold pairOutcome
    split_ifs
    · rfl
    · rw [hc]
      rfl
  · have h := outcomes_dropInvalid colors.light colors.dark (strToLower search) hk1 hk2
    simp only [allContrastsReport, computeLevels_eq]
    rw [h]

/-! ## Determinism under map iteration order (Claim C9 machinery) -/

theorem lookup_eq_of_perm {l₁ l₂ : List (String × String)} (h : l₁.Perm l₂) :
    ∀ k, (l₁.map Prod.fst).Nodup → List.lookup k l₁ = List.lookup k l₂ := by
  induction h with
  | nil => intro k _; rfl
  | cons x h ih =>
    intro k hk
    obtain ⟨a, v⟩ := x
    rw [List.map_cons, List.nodup_cons] at hk
    by_cases hka : k = a
    · subst hka
      simp [List.lookup_cons]
    · have hb : (k == a) = false := beq_eq_false_iff_ne.2 hka
      simp [List.lookup_cons, hb, ih k hk.2]
  | swap x y t =>
    intro k hk
    obtain ⟨a, v⟩ := x
    obtain ⟨b, w⟩ := y
    rw [List.map_cons, List.map_cons, List.nodup_cons] at hk
    have hba : ¬b = a := fun hh => hk.1 (hh ▸ List.mem_cons_self _ _)
    by_cases hkb : k = b
    · subst hkb
      have ha : (k == a) = false := beq_eq_false_iff_ne.2 hba
      simp [List.lookup_cons, ha]
    · by_cases hka : k = a
      · subst hka
        have hb : (k == b) = false := beq_eq_false_iff_ne.2 hkb
        simp [List.lookup_cons, hb]
      · simp [List.lookup_cons, beq_eq_false_iff_ne.2 hka, beq_eq_false_iff_ne.2 hkb]
  | trans h₁ h₂ ih₁ ih₂ =>
    intro k hk
    exact (ih₁ k hk).trans (ih₂ k ((h₁.map Prod.fst).nodup hk))

theorem lookupD_eq_of_perm {l₁ l₂ : List (String × String)} (h : l₁.Perm l₂)
    (hk : (l₁.map Prod.fst).Nodup) (k : String) :
    lookupD l₁ k = lookupD l₂ k := by
  unfold lookupD
  rw [lookup_eq_of_perm h k hk]

theorem sortedNames_eq_of_perm {l₁ l₂ : List (String × String)} (h : l₁.Perm l₂) :
    sortedNames l₁ = sortedNames l₂ :=
  List.eq_of_perm_of_sorted
    ((List.perm_insertionSort _ _).trans ((h.map Prod.fst).trans
      (List.perm_insertionSort _ _).symm))
    (List.sorted_insertionSort _ _) (List.sorted_insertionSort _ _)

theorem computeLevels_congr (c₁ c₂ : ColorSets) (s f : String)
    (h1 : sortedNames c₁.light = sortedNames c₂.light)
    (h2 : sortedNames c₁.dark = sortedNames c₂.dark)
    (h3 : ∀ k, lookupD c₁.light k = lookupD c₂.light k)
    (h4 : ∀ k, lookupD c₁.dark k = lookupD c₂.dark k) :
    computeLevels c₁ s f = computeLevels c₂ s f := by
  have hpp : ∀ acc nameLight nameDark,
      processPair c₁.light c₁.dark s f acc nameLight nameDark =
      processPair c₂.light c₂.dark s f acc nameLight nameDark := by
    intro acc nameLight nameDark
    unfold processPair
    rw [h3, h4]
  unfold computeLevels
  rw [h1, h2]
  simp only [hpp]

/-- Claim C9: the report computation is a deterministic function of its
inputs — it is invariant under any reordering of the palette entries (the
unspecified Go map iteration order), so two invocations with the same
palettes and the same search/filter arguments produce identical
categorized output, including the order inside each bucket. -/
theorem c9_report_deterministic (c₁ c₂ : ColorSets) (search filter : String)
    (hl : c₁.light.Perm c₂.light) (hd : c₁.dark.Perm c₂.dark)
    (hk1 : (c₁.light.map Prod.fst).Nodup) (hk2 : (c₁.dark.map Prod.fst).Nodup) :
    allContrastsReport c₁ search filter = allContrastsReport c₂ search filter := by
  have hcl : ∀ s f, computeLevels c₁ s f = computeLevels c₂ s f := fun s f =>
    computeLevels_congr c₁ c₂ s f (sortedNames_eq_of_perm hl)
      (sortedNames_eq_of_perm hd) (lookupD_eq_of_perm hl hk1)
      (lookupD_eq_of_perm hd hk2)
  simp only [allContrastsReport, hcl]

/-! ## Witnesses at concrete inputs -/

/-- Witness for C6 at the one-pair palettes and the term `"zzz"` that
matches neither name. -/
theorem c6_witness :
    processPair [("black", "#000000")] [("white", "#ffffff")] "zzz" "" emptyLevels
      "black" "white" = emptyLevels ∧
    allContrastsReport ⟨[("black", "#000000")], [("white", "#ffffff")]⟩ "zzz" "" =
      emptyLevels := by
  obtain ⟨h1, h2⟩ := c6_search_term_filter
    ⟨[("black", "#000000")], [("white", "#ffffff")]⟩ "zzz" ""
    (by decide) (by decide) (by decide)
  exact ⟨h1 _ _ _ _ _ _ _ (by decide) (by decide) (by decide), h2⟩

/-- Witness for C7 at a palette holding the malformed entry `"#12345"`
next to a valid one. -/
theorem c7_witness :
    processPair [("bad", "#12345")] [("white", "#ffffff")] "" "" emptyLevels
      "bad" "white" = emptyLevels ∧
    allContrastsReport ⟨[("bad", "#12345"), ("black", "#000000")],
        [("white", "#ffffff")]⟩ "" "" =
      allContrastsReport ⟨dropInvalid [("bad", "#12345"), ("black", "#000000")],
        dropInvalid [("white", "#ffffff")]⟩ "" "" := by
  obtain ⟨h1, h2⟩ := c7_malformed_entry_skipped
    ⟨[("bad", "#12345"), ("black", "#000000")], [("white", "#ffffff")]⟩ "" ""
    (by decide) (by decide)
  refine ⟨h1 _ _ _ _ _ _ _ ?_, h2⟩
  have hlook : lookupD [("bad", "#12345")] "bad" = "#12345" := by decide
  have hinv : validHex "#12345" = false := by decide
  rw [hlook]
  exact contrastRatio_none_of_invalid (Or.inl hinv)

/-- Witness for C9 at two orderings of the same two-entry palette. -/
theorem c9_witness :
    allContrastsReport ⟨[("a", "#000000"), ("b", "#ffffff")], [("w", "#ffffff")]⟩
      "" "" =
    allContrastsReport ⟨[("b", "#ffffff"), ("a", "#000000")], [("w", "#ffffff")]⟩
      "" "" :=
  c9_report_deterministic _ _ "" ""
    (List.Perm.swap ("b", "#ffffff") ("a", "#000000") [])
    (List.Perm.refl _) (by decide) (by decide)

/-- Witness for C10 at the concrete ratios 8, 5 and 2. -/
theorem c10_witness :
    complianceLevelLarge 8 = "AAA" ∧ complianceLevelLarge 5 = "AAA" ∧
      complianceLevel 2 = "Fail" := by
  obtain ⟨h, -⟩ := c10_large_never_stricter ⟨[], []⟩ "" ""
  refine ⟨(h 8).1 ?_, (h 5).2.1 ?_, (h 2).2.2 ?_⟩
  · norm_num [complianceLevel]
  · norm_num [complianceLevel]
  · norm_num [complianceLevelLarge]

end ContrastChecker
